import Mathlib

/-!
Verification of the yazr repository: the memoizing-cache decorator
(`src/yazr/cache.py`) and the node hierarchy with cache ownership and
upward delegation (`src/yazr/nodes/base.py`, `src/yazr/nodes/node.py`).

Python values appearing in cache keys are embedded as `PyVal`; floats are
modelled as exact rationals, which suffices for the numeric-equality
versus type-distinction behaviour the key derivation depends on.
Exceptions are modelled with `Except`, the diskcache ENOVAL miss sentinel
with `Option.none`, and the external diskcache store as an association
list keyed by Python tuple equality.
-/

/-- Python runtime types, as produced by `type(arg)` for the values the
key derivation can see. -/
inductive PyType where
  | intT
  | floatT
  | strT
  | noneT
  | typeT
deriving DecidableEq, Repr

/-- Python values that can occur as call arguments and as elements of a
cache key tuple: ints, floats (exact rationals), strings, `None`, and
type objects (appended to keys under `typed=True`). -/
inductive PyVal where
  | int (n : Int)
  | float (q : Rat)
  | str (s : String)
  | pynone
  | type (t : PyType)
deriving DecidableEq, Repr

/-- The Python `type(v)` of an embedded value. -/
def typeOf : PyVal → PyType
  | .int _ => .intT
  | .float _ => .floatT
  | .str _ => .strT
  | .pynone => .noneT
  | .type _ => .typeT

/-- Python `==` on embedded values: an int and a float are equal when
numerically equal (`3 == 3.0` holds in Python); values of unrelated
kinds are unequal. -/
def pyEq : PyVal → PyVal → Bool
  | .int a, .int b => decide (a = b)
  | .int a, .float b => decide ((a : Rat) = b)
  | .float a, .int b => decide (a = (b : Rat))
  | .float a, .float b => decide (a = b)
  | .str a, .str b => decide (a = b)
  | .pynone, .pynone => true
  | .type a, .type b => decide (a = b)
  | _, _ => false

/-- Python tuple equality on key tuples: elementwise `pyEq`, same length. -/
def pyEqList : List PyVal → List PyVal → Bool
  | [], [] => true
  | a :: as_, b :: bs => pyEq a b && pyEqList as_ bs
  | _, _ => false

/-- An entry of the `ignore` iterable passed to `memoize`: diskcache
accepts positional indices and keyword names ("positional or keyword
args to ignore"). -/
inductive IgnKey where
  | idx (i : Nat)
  | name (s : String)
deriving DecidableEq, Repr

/-- Positional-argument filtering for key derivation: the argument at
index `i` is dropped when `i` is in the ignore set.  The counter `i` is
the index of the head of the remaining list. -/
def filterArgs (ignore : List IgnKey) : Nat → List PyVal → List PyVal
  | _, [] => []
  | i, a :: rest =>
      if IgnKey.idx i ∈ ignore then filterArgs ignore (i + 1) rest
      else a :: filterArgs ignore (i + 1) rest

/-- Keyword-argument filtering for key derivation: entries whose name is
in the ignore set are dropped. -/
def filterKw (ignore : List IgnKey) (kwargs : List (String × PyVal)) :
    List (String × PyVal) :=
  kwargs.filter (fun p => !(ignore.contains (IgnKey.name p.1)))

/-- Lexicographic order on strings by code point, as Python compares
the name components of keyword items. -/
def strLeB : List Char → List Char → Bool
  | [], _ => true
  | _ :: _, [] => false
  | a :: as_, b :: bs =>
      if a.toNat < b.toNat then true
      else if b.toNat < a.toNat then false
      else strLeB as_ bs

/-- Ordered insertion of a keyword item by key string. -/
def insKw (p : String × PyVal) : List (String × PyVal) → List (String × PyVal)
  | [] => [p]
  | q :: rest =>
      if strLeB p.1.toList q.1.toList then p :: q :: rest
      else q :: insKw p rest

/-- Order normalization of keyword items, as `sorted(kwargs.items())`
does for a dict with distinct keys: sort by key string. -/
def sortKw : List (String × PyVal) → List (String × PyVal)
  | [] => []
  | p :: rest => insKw p (sortKw rest)

/-- Modelled from the spec: diskcache.core.args_to_key is imported by
cache.py but its source is not part of this repository.  Per the spec,
the cache key is an ordered tuple of the base identifier, the positional
arguments, the order-normalized keyword arguments, with ignored
parameters excluded, and, under `typed=True`, the types of the surviving
arguments appended.  A `None` separator sits between positional and
keyword parts, and each keyword item contributes its name then its
value. -/
def args_to_key (base : String) (args : List PyVal)
    (kwargs : List (String × PyVal)) (typed : Bool) (ignore : List IgnKey) :
    List PyVal :=
  (PyVal.str base :: filterArgs ignore 0 args ++ [PyVal.pynone]
      ++ (sortKw (filterKw ignore kwargs)).flatMap
          (fun p => [PyVal.str p.1, p.2]))
    ++ (if typed then
          (filterArgs ignore 0 args).map (fun a => PyVal.type (typeOf a))
            ++ (sortKw (filterKw ignore kwargs)).map
                (fun p => PyVal.type (typeOf p.2))
        else [])

/-- A Python callable as the Memoizer sees it: the fully-qualified name
that `full_name(func)` reports (modelled from the spec: `full_name` is a
diskcache helper not in this repository, producing the callable's
automatic base identifier), and its behaviour on `(args, kwargs)`, which
either returns a value or raises. -/
structure PyFunc where
  qualname : String
  impl : List PyVal → List (String × PyVal) → Except String PyVal

/-- The `name` argument of `memoize`: `None`, a string, or — the caller
mistake `memoize` guards against — a callable. -/
inductive NameArg where
  | pynone
  | pystr (s : String)
  | pycallable (f : PyFunc)

/-- Python `callable(name)` for the values `name` can take here. -/
def nameIsCallable : NameArg → Bool
  | .pycallable _ => true
  | _ => false

/-- The configuration captured by the decorator closure returned by
`memoize`: immutable once applied. -/
structure MemoConfig where
  name : NameArg
  typed : Bool
  expire : Option Rat
  tag : Option String
  ignore : List IgnKey

/-- `memoize(name, typed, expire, tag, ignore)`: raises
`TypeError("name cannot be callable")` when `name` is callable,
otherwise returns the decorator with the captured configuration. -/
def memoize (name : NameArg) (typed : Bool) (expire : Option Rat)
    (tag : Option String) (ignore : List IgnKey) :
    Except String MemoConfig :=
  if nameIsCallable name then Except.error "name cannot be callable"
  else Except.ok ⟨name, typed, expire, tag, ignore⟩

/-- `base = (full_name(func),) if name is None else (name,)` in the
decorator body. -/
def baseOf (cfg : MemoConfig) (f : PyFunc) : String :=
  match cfg.name with
  | .pystr s => s
  | _ => f.qualname

/-- `wrapper.__cache_key__(*args, **kwargs)`: the key-derivation
function attached to the wrapper, delegating to `args_to_key`. -/
def cache_key (cfg : MemoConfig) (f : PyFunc) (args : List PyVal)
    (kwargs : List (String × PyVal)) : List PyVal :=
  args_to_key (baseOf cfg f) args kwargs cfg.typed cfg.ignore

/-- Modelled from the spec: the external persistent key-value cache
(diskcache Cache, not part of this repository) as an association list of
key-value pairs; lookups use Python tuple equality on keys. -/
structure CacheState where
  entries : List (List PyVal × PyVal)

/-- Modelled from the spec: `cache.get(key, default=ENOVAL, retry=True)`
returns the stored value, or the miss sentinel — here `Option.none` —
when no entry matches. -/
def cacheGet (st : CacheState) (key : List PyVal) : Option PyVal :=
  match st.entries.find? (fun e => pyEqList e.1 key) with
  | some e => some e.2
  | Option.none => Option.none

/-- Modelled from the spec: `cache.set(key, result, expire, tag,
retry=True)` stores the value under the key; newer entries shadow older
ones. -/
def cacheSet (st : CacheState) (key : List PyVal) (v : PyVal) : CacheState :=
  ⟨(key, v) :: st.entries⟩

/-- A store operation issued by the wrapper, with the `retry` mode it
requested. -/
inductive StoreOp where
  | get (key : List PyVal) (retry : Bool)
  | set (key : List PyVal) (value : PyVal) (expire : Option Rat)
      (tag : Option String) (retry : Bool)

/-- The `retry` flag an operation was issued with. -/
def retryOf : StoreOp → Bool
  | .get _ r => r
  | .set _ _ _ _ r => r

/-- The outcome of one call of the memoized wrapper: the returned value
or propagated exception, the cache state afterwards, the store
operations issued, and how many times the underlying function ran. -/
structure CallResult where
  result : Except String PyVal
  state : CacheState
  trace : List StoreOp
  invoked : Nat

/-- The `expire is None or expire > 0` condition guarding the cache
write in the wrapper. -/
def storeCondition : Option Rat → Bool
  | Option.none => true
  | some e => decide (0 < e)

/-- The wrapper produced by the decorator: derive the key, look it up
with `retry=True`; on the miss sentinel run the wrapped function and —
when `expire is None or expire > 0` — store the result with `retry=True`;
an exception from the wrapped function propagates and nothing is
stored. -/
def wrapper (cfg : MemoConfig) (f : PyFunc) (args : List PyVal)
    (kwargs : List (String × PyVal)) (st : CacheState) : CallResult :=
  let key := cache_key cfg f args kwargs
  match cacheGet st key with
  | some r => ⟨Except.ok r, st, [StoreOp.get key true], 0⟩
  | Option.none =>
      match f.impl args kwargs with
      | Except.error e => ⟨Except.error e, st, [StoreOp.get key true], 1⟩
      | Except.ok r =>
          if storeCondition cfg.expire then
            ⟨Except.ok r, cacheSet st key r,
              [StoreOp.get key true,
                StoreOp.set key r cfg.expire cfg.tag true], 1⟩
          else ⟨Except.ok r, st, [StoreOp.get key true], 1⟩

/-- A diskcache Cache instance as owned by a root node, identified by
its on-disk directory. -/
structure DCache where
  dir : String
deriving DecidableEq, Repr

/-- A tree node as `BaseNode` sees it: a name, an optional owned cache
(`self._cache`, present only when set at construction), and the parent
linkage.  A `root` has no parent; a `child` holds a back-reference to
its parent. -/
inductive NodeT where
  | root (name : String) (owned : Option DCache)
  | child (name : String) (owned : Option DCache) (parent : NodeT)
deriving Repr

/-- The owned cache of a node, when any (`self._cache`). -/
def NodeT.owned : NodeT → Option DCache
  | .root _ c => c
  | .child _ c _ => c

/-- The `BaseNode.cache` property: return `self._cache` when it exists;
on `AttributeError` delegate to `self.parent.cache`.  A parentless node
without an owned cache raises: `Option.none` models that
`AttributeError`. -/
def resolveCache : NodeT → Option DCache
  | .root _ (some c) => some c
  | .root _ Option.none => Option.none
  | .child _ (some c) _ => some c
  | .child _ Option.none p => resolveCache p

/-- `Node.__init__(name, cache_dir_path, parent)`: raises `TreeError`
on an empty name; a parentless node creates an owned cache at the given
directory, defaulting to `/tmp/yazr_{name}.cache`; a node with a parent
creates no owned cache and will delegate upward. -/
def Node.init (name : String) (cache_dir_path : Option String)
    (parent : Option NodeT) : Except String NodeT :=
  if name = "" then
    Except.error "Node must have a str as name attribute"
  else
    match parent with
    | Option.none =>
        let dir := match cache_dir_path with
          | Option.none => "/tmp/yazr_" ++ name ++ ".cache"
          | some d => d
        Except.ok (NodeT.root name (some ⟨dir⟩))
    | some p => Except.ok (NodeT.child name Option.none p)

/-- The whole ownership chain from a node up to its root owns no
cache: the error state of the resolution invariant. -/
def unownedChain : NodeT → Bool
  | .root _ c => c.isNone
  | .child _ c p => c.isNone && unownedChain p

theorem pyEq_refl (v : PyVal) : pyEq v v = true := by
  cases v <;> simp [pyEq]

theorem pyEqList_refl (l : List PyVal) : pyEqList l l = true := by
  induction l with
  | nil => rfl
  | cons a rest ih => simp [pyEqList, pyEq_refl, ih]

theorem cacheGet_set_self (st : CacheState) (key : List PyVal) (v : PyVal) :
    cacheGet (cacheSet st key v) key = some v := by
  simp [cacheGet, cacheSet, List.find?, pyEqList_refl]

/-- Claim C1: for a fixed decorated-callable configuration, two calls
whose positional arguments (after excluding ignored indices) and
keyword arguments (after excluding ignored names, order normalized) are
equal derive the identical cache key; and under `typed=True`, `f(3)`
and `f(3.0)` — numerically equal arguments of different types — derive
keys that are distinct under Python tuple equality. -/
theorem cache_key_respects_identity_and_typed :
    (∀ (base : String) (typed : Bool) (ignore : List IgnKey)
        (args₁ : List PyVal) (kwargs₁ : List (String × PyVal))
        (args₂ : List PyVal) (kwargs₂ : List (String × PyVal)),
      filterArgs ignore 0 args₁ = filterArgs ignore 0 args₂ →
      sortKw (filterKw ignore kwargs₁) = sortKw (filterKw ignore kwargs₂) →
      args_to_key base args₁ kwargs₁ typed ignore =
        args_to_key base args₂ kwargs₂ typed ignore) ∧
    pyEqList (args_to_key "f" [PyVal.int 3] [] true [])
      (args_to_key "f" [PyVal.float 3] [] true []) = false := by
  constructor
  · intro base typed ignore args₁ kwargs₁ args₂ kwargs₂ h₁ h₂
    simp only [args_to_key, h₁, h₂]
  · decide

/-- Witness for C1: two concrete calls — mismatched at an ignored
positional index, with keywords given in different orders and an
ignored keyword differing — derive the identical key. -/
theorem cache_key_respects_identity_and_typed_witness :
    args_to_key "m.f" [PyVal.int 1, PyVal.int 2]
        [("b", PyVal.str "y"), ("a", PyVal.str "x"), ("z", PyVal.int 9)]
        false [IgnKey.idx 0, IgnKey.name "z"] =
      args_to_key "m.f" [PyVal.int 7, PyVal.int 2]
        [("a", PyVal.str "x"), ("b", PyVal.str "y"), ("z", PyVal.int 0)]
        false [IgnKey.idx 0, IgnKey.name "z"] :=
  cache_key_respects_identity_and_typed.1 "m.f" false
    [IgnKey.idx 0, IgnKey.name "z"] _ _ _ _ (by decide) (by decide)

/-- Claim C5: a keyword argument whose name is in the ignore set does
not affect the derived key — two calls differing only in that
argument's value produce the same key. -/
theorem ignored_name_does_not_affect_key
    (base : String) (typed : Bool) (ignore : List IgnKey)
    (args : List PyVal) (pre post : List (String × PyVal))
    (k : String) (v₁ v₂ : PyVal)
    (hk : IgnKey.name k ∈ ignore) :
    args_to_key base args (pre ++ (k, v₁) :: post) typed ignore =
      args_to_key base args (pre ++ (k, v₂) :: post) typed ignore := by
  have hfil : ∀ v : PyVal,
      filterKw ignore (pre ++ (k, v) :: post) =
        filterKw ignore pre ++ filterKw ignore post := by
    intro v
    simp [filterKw, List.filter_append, List.filter_cons, hk]
  simp only [args_to_key, hfil]

/-- Witness for C5: with `"token"` ignored, calls passing
`token="a"` and `token="b"` derive the same key. -/
theorem ignored_name_does_not_affect_key_witness :
    args_to_key "m.f" [PyVal.int 5]
        [("n", PyVal.int 1), ("token", PyVal.str "a")] true
        [IgnKey.name "token"] =
      args_to_key "m.f" [PyVal.int 5]
        [("n", PyVal.int 1), ("token", PyVal.str "b")] true
        [IgnKey.name "token"] :=
  ignored_name_does_not_affect_key "m.f" true [IgnKey.name "token"]
    [PyVal.int 5] [("n", PyVal.int 1)] [] "token"
    (PyVal.str "a") (PyVal.str "b") (by decide)

/-- Claim C4: in every three-level tree whose root owns cache `A` while
child `B` and grandchild `C` own none, the `cache` property resolves
both descendants to the root's instance. -/
theorem three_level_tree_resolves_to_root_cache
    (rn bn cn : String) (A : DCache) :
    resolveCache (NodeT.child bn Option.none
        (NodeT.root rn (some A))) = some A ∧
    resolveCache (NodeT.child cn Option.none
        (NodeT.child bn Option.none (NodeT.root rn (some A)))) = some A :=
  ⟨rfl, rfl⟩

/-- Claim C6: a node none of whose ownership chain owns a cache fails
cache resolution (the `AttributeError`, modelled as `Option.none`),
while constructing a child node succeeds regardless of whether any
ancestor owns a cache — the failure is deferred to the first access. -/
theorem unowned_chain_fails_at_access_not_construction :
    (∀ n : NodeT, unownedChain n = true →
      resolveCache n = Option.none) ∧
    (∀ (name : String) (dirp : Option String) (p : NodeT), name ≠ "" →
      Node.init name dirp (some p) =
        Except.ok (NodeT.child name Option.none p)) := by
  constructor
  · intro n h
    induction n with
    | root nm c =>
        cases c with
        | none => rfl
        | some c => simp [unownedChain] at h
    | child nm c p ih =>
        cases c with
        | none =>
            simp only [unownedChain, Option.isNone_none, Bool.true_and] at h
            simpa [resolveCache] using ih h
        | some c => simp [unownedChain] at h
  · intro name dirp p h
    simp [Node.init, h]

/-- Witness for C6: a two-node chain with no owned cache anywhere is
constructed successfully yet resolves to the error value. -/
theorem unowned_chain_fails_witness :
    resolveCache (NodeT.child "b" Option.none
        (NodeT.root "a" Option.none)) = Option.none ∧
    Node.init "b" Option.none (some (NodeT.root "a" Option.none)) =
      Except.ok (NodeT.child "b" Option.none
        (NodeT.root "a" Option.none)) :=
  ⟨unowned_chain_fails_at_access_not_construction.1 _ rfl,
    unowned_chain_fails_at_access_not_construction.2 "b" Option.none _
      (by decide)⟩

/-- Claim C7: `memoize` applied with a callable `name` — the shape of a
bare, uninvoked decorator — raises `TypeError` at configuration time,
before any decorator or wrapper exists. -/
theorem memoize_rejects_callable_name (f : PyFunc) (typed : Bool)
    (expire : Option Rat) (tag : Option String) (ignore : List IgnKey) :
    memoize (NameArg.pycallable f) typed expire tag ignore =
      Except.error "name cannot be callable" :=
  rfl

/-- Claim C8: a parentless Node named `"foo"` with no explicit cache
location owns, from construction, a cache at the derived default
location `/tmp/yazr_foo.cache`, a path containing `"foo"`. -/
theorem root_node_default_cache_location :
    Node.init "foo" Option.none Option.none =
      Except.ok (NodeT.root "foo" (some ⟨"/tmp/yazr_foo.cache"⟩)) ∧
    "foo".toList <:+: "/tmp/yazr_foo.cache".toList := by
  refine ⟨rfl, ?_⟩
  exact ⟨"/tmp/yazr_".toList, ".cache".toList, by decide⟩

/-- Claim C2: with `expire=None` or a positive `expire` and no expiry
elapsing, two identical calls starting from a cache with no entry for
the derived key invoke the underlying function at most once, and both
calls return the same (successful) result. -/
theorem memoized_twice_invokes_at_most_once
    (cfg : MemoConfig) (f : PyFunc) (args : List PyVal)
    (kwargs : List (String × PyVal)) (st : CacheState) (v : PyVal)
    (hexp : cfg.expire = Option.none ∨ ∃ q, cfg.expire = some q ∧ 0 < q)
    (hmiss : cacheGet st (cache_key cfg f args kwargs) = Option.none)
    (hok : f.impl args kwargs = Except.ok v) :
    (wrapper cfg f args kwargs st).invoked +
        (wrapper cfg f args kwargs
          (wrapper cfg f args kwargs st).state).invoked ≤ 1 ∧
    (wrapper cfg f args kwargs st).result = Except.ok v ∧
    (wrapper cfg f args kwargs
      (wrapper cfg f args kwargs st).state).result = Except.ok v := by
  have hstore : storeCondition cfg.expire = true := by
    rcases hexp with h | ⟨q, hq, hpos⟩
    · simp [storeCondition, h]
    · simp [storeCondition, hq, hpos]
  have h₁ : wrapper cfg f args kwargs st =
      ⟨Except.ok v, cacheSet st (cache_key cfg f args kwargs) v,
        [StoreOp.get (cache_key cfg f args kwargs) true,
          StoreOp.set (cache_key cfg f args kwargs) v cfg.expire cfg.tag
            true], 1⟩ := by
    simp [wrapper, hmiss, hok, hstore]
  rw [h₁]
  have h₂ : cacheGet (cacheSet st (cache_key cfg f args kwargs) v)
      (cache_key cfg f args kwargs) = some v :=
    cacheGet_set_self st (cache_key cfg f args kwargs) v
  simp [wrapper, h₂]

/-- Witness for C2: a concrete memoized call with `expire=None`,
computed once from the empty cache and replayed from the resulting
state. -/
theorem memoized_twice_invokes_at_most_once_witness :
    (wrapper ⟨NameArg.pynone, false, Option.none, Option.none, []⟩
          ⟨"m.f", fun _ _ => Except.ok (PyVal.int 7)⟩
          [PyVal.int 5] [] ⟨[]⟩).invoked +
        (wrapper ⟨NameArg.pynone, false, Option.none, Option.none, []⟩
          ⟨"m.f", fun _ _ => Except.ok (PyVal.int 7)⟩
          [PyVal.int 5] []
          (wrapper ⟨NameArg.pynone, false, Option.none, Option.none, []⟩
            ⟨"m.f", fun _ _ => Except.ok (PyVal.int 7)⟩
            [PyVal.int 5] [] ⟨[]⟩).state).invoked ≤ 1 ∧
    (wrapper ⟨NameArg.pynone, false, Option.none, Option.none, []⟩
        ⟨"m.f", fun _ _ => Except.ok (PyVal.int 7)⟩
        [PyVal.int 5] [] ⟨[]⟩).result = Except.ok (PyVal.int 7) ∧
    (wrapper ⟨NameArg.pynone, false, Option.none, Option.none, []⟩
        ⟨"m.f", fun _ _ => Except.ok (PyVal.int 7)⟩
        [PyVal.int 5] []
        (wrapper ⟨NameArg.pynone, false, Option.none, Option.none, []⟩
          ⟨"m.f", fun _ _ => Except.ok (PyVal.int 7)⟩
          [PyVal.int 5] [] ⟨[]⟩).state).result = Except.ok (PyVal.int 7) :=
  memoized_twice_invokes_at_most_once _ _ _ _ _ _ (Or.inl rfl) rfl rfl

/-- Claim C3: with `expire=0` (or any non-positive expire), every call
performs the lookup with the key, misses, runs the wrapped function,
and writes nothing back — the cache state stays unchanged, so the next
identical call behaves the same way. -/
theorem expire_zero_computes_every_call
    (cfg : MemoConfig) (f : PyFunc) (args : List PyVal)
    (kwargs : List (String × PyVal)) (st : CacheState) (v : PyVal) (q : Rat)
    (hexp : cfg.expire = some q) (hq : q ≤ 0)
    (hmiss : cacheGet st (cache_key cfg f args kwargs) = Option.none)
    (hok : f.impl args kwargs = Except.ok v) :
    wrapper cfg f args kwargs st =
      ⟨Except.ok v, st,
        [StoreOp.get (cache_key cfg f args kwargs) true], 1⟩ ∧
    wrapper cfg f args kwargs (wrapper cfg f args kwargs st).state =
      ⟨Except.ok v, st,
        [StoreOp.get (cache_key cfg f args kwargs) true], 1⟩ := by
  have hstore : storeCondition cfg.expire = false := by
    rw [hexp]
    simpa [storeCondition] using not_lt.mpr hq
  have h₁ : wrapper cfg f args kwargs st =
      ⟨Except.ok v, st,
        [StoreOp.get (cache_key cfg f args kwargs) true], 1⟩ := by
    simp [wrapper, hmiss, hok, hstore]
  refine ⟨h₁, ?_⟩
  rw [h₁]
  simp [wrapper, hmiss, hok, hstore]

/-- Witness for C3: a concrete call with `expire=0` from the empty
cache recomputes on both of two consecutive calls and stores nothing. -/
theorem expire_zero_computes_every_call_witness :
    wrapper ⟨NameArg.pynone, false, some 0, Option.none, []⟩
        ⟨"m.f", fun _ _ => Except.ok (PyVal.int 7)⟩
        [PyVal.int 5] [] ⟨[]⟩ =
      ⟨Except.ok (PyVal.int 7), ⟨[]⟩,
        [StoreOp.get (cache_key
            ⟨NameArg.pynone, false, some 0, Option.none, []⟩
            ⟨"m.f", fun _ _ => Except.ok (PyVal.int 7)⟩
            [PyVal.int 5] []) true], 1⟩ ∧
    wrapper ⟨NameArg.pynone, false, some 0, Option.none, []⟩
        ⟨"m.f", fun _ _ => Except.ok (PyVal.int 7)⟩
        [PyVal.int 5] []
        (wrapper ⟨NameArg.pynone, false, some 0, Option.none, []⟩
          ⟨"m.f", fun _ _ => Except.ok (PyVal.int 7)⟩
          [PyVal.int 5] [] ⟨[]⟩).state =
      ⟨Except.ok (PyVal.int 7), ⟨[]⟩,
        [StoreOp.get (cache_key
            ⟨NameArg.pynone, false, some 0, Option.none, []⟩
            ⟨"m.f", fun _ _ => Except.ok (PyVal.int 7)⟩
            [PyVal.int 5] []) true], 1⟩ :=
  expire_zero_computes_every_call _ _ _ _ _ _ 0 rfl le_rfl rfl rfl

/-- Claim C9: every store operation the wrapper issues — the lookup and
any write — requests the retry-on-contention mode. -/
theorem wrapper_always_requests_retry (cfg : MemoConfig) (f : PyFunc)
    (args : List PyVal) (kwargs : List (String × PyVal)) (st : CacheState) :
    ((wrapper cfg f args kwargs st).trace).all retryOf = true := by
  cases hg : cacheGet st (cache_key cfg f args kwargs) with
  | some r => simp [wrapper, hg, retryOf]
  | none =>
      cases hf : f.impl args kwargs with
      | error e => simp [wrapper, hg, hf, retryOf]
      | ok r =>
          cases hc : storeCondition cfg.expire <;>
            simp [wrapper, hg, hf, hc, retryOf]

/-- Claim C10: when the lookup misses and the wrapped function raises,
the exception propagates as the call's outcome, only the lookup was
issued, and the cache state is unchanged. -/
theorem exception_propagates_without_write
    (cfg : MemoConfig) (f : PyFunc) (args : List PyVal)
    (kwargs : List (String × PyVal)) (st : CacheState) (e : String)
    (hmiss : cacheGet st (cache_key cfg f args kwargs) = Option.none)
    (herr : f.impl args kwargs = Except.error e) :
    wrapper cfg f args kwargs st =
      ⟨Except.error e, st,
        [StoreOp.get (cache_key cfg f args kwargs) true], 1⟩ := by
  simp [wrapper, hmiss, herr]

/-- Witness for C10: a wrapped function that raises, called on the
empty cache, propagates its exception and leaves the cache empty. -/
theorem exception_propagates_without_write_witness :
    wrapper ⟨NameArg.pynone, false, Option.none, Option.none, []⟩
        ⟨"m.f", fun _ _ => Except.error "boom"⟩
        [PyVal.int 5] [] ⟨[]⟩ =
      ⟨Except.error "boom", ⟨[]⟩,
        [StoreOp.get (cache_key
            ⟨NameArg.pynone, false, Option.none, Option.none, []⟩
            ⟨"m.f", fun _ _ => Except.error "boom"⟩
            [PyVal.int 5] []) true], 1⟩ :=
  exception_propagates_without_write _ _ _ _ _ "boom" rfl rfl
